import Mathlib

/-!
Verification of the libmqtt core: a shallow embedding of the
subscribe/unsubscribe packet codec (`src/unnamed/part_000`) and of the
per-connection session engine (`src/client_conn.go`), with theorems
settling the specification claims about them.

Conventions of the embedding:
- Go byte slices become `List Nat` with values below 256 where it matters;
- Go strings are byte sequences; we embed them as Lean `String` and take
  their code points as bytes (all concrete inputs used here are ASCII, for
  which code point and UTF-8 byte coincide);
- nil-able Go pointers and maps become `Option`;
- channels become lists of the values sent on them, in send order;
- the stateful `logic` loop becomes a step function
  `ConnState → InPacket → ConnState × StepOut`.

Helpers whose Go source is not part of this repository snapshot
(`BasePacket.write`/`writeV5`, the primitive codec, the property-set
encoder, the packet-identifier allocator, the keepalive timers) are
modelled from the specification; each such definition says so in its
doc comment.
-/

namespace LibMQTT

/-- A Go byte, embedded as `Nat` (values < 256 wherever the code produces one). -/
abbrev Byte := Nat

/-- ProtoVersion: V311 and V5 are the supported versions; `VOther`
stands for any other value, which the encoders reject. -/
inductive ProtoVersion
  | V311
  | V5
  | VOther
deriving DecidableEq, Repr

/-- Encoding errors surfaced by `WriteTo` (`ErrEncodeBadPacket`,
`ErrUnsupportedVersion` in the Go source). -/
inductive EncErr
  | encodeBadPacket
  | unsupportedVersion
deriving DecidableEq, Repr

/-- Bytes of a Go string: Go strings are byte sequences; we take the code
points of the Lean string (equal to the UTF-8 bytes for the ASCII
inputs used in this development). -/
def strBytes (s : String) : List Byte :=
  s.data.map (fun c => c.toNat)

/-- Modelled from the spec: §4.2 — `encodeStringWithLen` (primitive codec,
not under src/): a 2-byte big-endian length prefix followed by the bytes. -/
def encodeStringWithLen (s : String) : List Byte :=
  (strBytes s).length / 256 % 256 :: (strBytes s).length % 256 :: strBytes s

/-- Modelled from the spec: §4.1 — `varIntBytes` (variable-byte integer,
not under src/): 1–4 bytes, 7 payload bits per byte, the high bit is the
continuation flag. The four cases are the loop of the Go encoder
unrolled to its maximum of four iterations (the Go function range-checks
against 2^28−1; inputs beyond that are out of scope here). -/
def varIntBytes (n : Nat) : List Byte :=
  if n < 128 then [n]
  else if n < 16384 then [n % 128 + 128, n / 128]
  else if n < 2097152 then [n % 128 + 128, n / 128 % 128 + 128, n / 16384]
  else [n % 128 + 128, n / 128 % 128 + 128, n / 16384 % 128 + 128, n / 2097152]

/-- Modelled from the spec: §4.4 scenario 1 — first byte `0x82` = `CtrlSubscribe<<4 | 2`,
so `CtrlSubscribe = 8`; the other control-type constants follow the same
MQTT numbering (SUBACK 9, UNSUBSCRIBE 10, UNSUBACK 11). -/
def CtrlSubscribe : Byte := 8

/-- SUBACK control type (see `CtrlSubscribe`). -/
def CtrlSubAck : Byte := 9

/-- UNSUBSCRIBE control type (see `CtrlSubscribe`). -/
def CtrlUnSub : Byte := 10

/-- UNSUBACK control type (see `CtrlSubscribe`). -/
def CtrlUnSubAck : Byte := 11

/-- Modelled from the spec: §4.3 / scenario 2 — property key bytes
(`propKeySubID = 0x0B`, `propKeyUserProps = 0x26`, `propKeyReasonString = 0x1F`;
their Go constant declarations are not under src/). -/
def propKeySubID : Byte := 11

/-- UserProperty key byte, 0x26 (see `propKeySubID`). -/
def propKeyUserProps : Byte := 38

/-- ReasonString key byte, 0x1F (see `propKeySubID`). -/
def propKeyReasonString : Byte := 31

/-- UserProps: an ordered sequence of key/value string pairs (§3 of the
spec: duplicates permitted, order preserved). The Go `UserProps` map is
nil-able, so packet fields hold `Option UserProps`. -/
abbrev UserProps := List (String × String)

/-- Modelled from the spec: scenario 2 — each user property encodes as the
tag byte 0x26 followed by the key string and the value string. This is
the byte sequence `UserProps.encodeTo` produces (its Go body is not
under src/); note that in Go it appends these bytes to a slice passed
by value, so callers that do not use a returned slice never observe them. -/
def UserProps.encodeTo (u : UserProps) : List Byte :=
  u.foldr (fun p acc => propKeyUserProps :: (encodeStringWithLen p.1 ++ encodeStringWithLen p.2 ++ acc)) []

/-- Topic: a topic filter with its requested/granted QoS
(`type Topic struct { Name string; Qos QosLevel }`). -/
structure Topic where
  name : String
  qos : Nat
deriving DecidableEq, Repr

/-- SubscribeProps: V5 properties of a SUBSCRIBE packet
(`SubID int`, `UserProps UserProps`). -/
structure SubscribeProps where
  SubID : Nat
  UserProps : Option UserProps
deriving DecidableEq, Repr

/-- `SubscribeProps.props` from the source. The receiver is nil-able, hence
`Option`. When `UserProps` is non-nil the Go code runs
`result = append(result, propKeyUserProps)` and then
`s.UserProps.encodeTo(result)`: the slice is passed by value and the call
result is unused, so the appends done inside `encodeTo` never reach
`result` — only the key byte itself is appended. The embedding keeps the
(discarded) call so that the data flow of the source is visible. -/
def SubscribeProps.props : Option SubscribeProps → List Byte
  | none => []
  | some s =>
    let result : List Byte := []
    let result := if s.SubID ≠ 0 then (result ++ [propKeySubID]) ++ varIntBytes s.SubID else result
    let result :=
      match s.UserProps with
      | some u =>
        let _discarded := UserProps.encodeTo u
        result ++ [propKeyUserProps]
      | none => result
    result

/-- Modelled from the spec: §4.4 — `BasePacket.write` (not under src/):
a packet serializes as first byte, variable-byte remaining length,
variable header, payload. -/
def packetBytes (first : Byte) (varHeader payload : List Byte) : List Byte :=
  first :: varIntBytes (varHeader.length + payload.length) ++ varHeader ++ payload

/-- Modelled from the spec: §4.4/§4.3 — `BasePacket.writeV5` (not under
src/): as `packetBytes` but the variable header is followed by the
property table prefixed with its variable-byte length. -/
def packetBytesV5 (first : Byte) (varHeader props payload : List Byte) : List Byte :=
  first ::
    varIntBytes (varHeader.length + (varIntBytes props.length).length + props.length + payload.length) ++
    varHeader ++ varIntBytes props.length ++ props ++ payload

/-- SubscribePacket (the `BasePacket` version field is inlined as
`version`; the nil-able `Topics` slice is a plain list — a `for range`
over a nil slice and over an empty slice are indistinguishable). -/
structure SubscribePacket where
  version : ProtoVersion
  PacketID : Nat
  Topics : List Topic
  Props : Option SubscribeProps
deriving DecidableEq, Repr

/-- `SubscribePacket.payload`: each topic contributes its
length-prefixed name followed by the QoS byte. -/
def SubscribePacket.payload (s : SubscribePacket) : List Byte :=
  s.Topics.foldl (fun acc t => (acc ++ encodeStringWithLen t.name) ++ [t.qos]) []

/-- `SubscribePacket.WriteTo`: the writer is the byte buffer accumulated so
far; the result pairs the buffer after the call with the returned error
(`none` = nil error). A nil receiver returns `ErrEncodeBadPacket` and
writes nothing. -/
def SubscribePacket.writeTo : Option SubscribePacket → List Byte → List Byte × Option EncErr
  | none, w => (w, some .encodeBadPacket)
  | some s, w =>
    let first := CtrlSubscribe * 16 + 2
    let varHeader := [s.PacketID / 256 % 256, s.PacketID % 256]
    match s.version with
    | .V311 => (w ++ packetBytes first varHeader s.payload, none)
    | .V5 => (w ++ packetBytesV5 first varHeader (SubscribeProps.props s.Props) s.payload, none)
    | .VOther => (w, some .unsupportedVersion)

/-- `SubscribePacket.Bytes`: nil receiver returns nil; otherwise the bytes
written to a fresh buffer (the `WriteTo` error is discarded). -/
def SubscribePacket.bytes : Option SubscribePacket → Option (List Byte)
  | none => none
  | some s => some (SubscribePacket.writeTo (some s) []).1

/-- SubAckProps: V5 properties of a SUBACK packet (`Reason string`,
`UserProps UserProps`). -/
structure SubAckProps where
  Reason : String
  UserProps : Option UserProps
deriving DecidableEq, Repr

/-- `SubAckProps.props`: entries of the property set in insertion order.
The `propertySet` helper is not under src/; modelled from the spec, its
`bytes()` concatenates each entry as key byte + encoded value (a reason
string as a length-prefixed string, user properties one tagged pair
each — for user properties `set` stores the whole table under its key,
so the per-pair tags come from the table encoding itself). -/
def SubAckProps.props : Option SubAckProps → List Byte
  | none => []
  | some p =>
    (if p.Reason ≠ "" then propKeyReasonString :: encodeStringWithLen p.Reason else []) ++
      (match p.UserProps with
       | some u => UserProps.encodeTo u
       | none => [])

/-- SubAckPacket (`Codes []byte`). -/
structure SubAckPacket where
  version : ProtoVersion
  PacketID : Nat
  Codes : List Byte
  Props : Option SubAckProps
deriving DecidableEq, Repr

/-- `SubAckPacket.payload` returns the codes unchanged. -/
def SubAckPacket.payload (s : SubAckPacket) : List Byte := s.Codes

/-- `SubAckPacket.WriteTo` (see `SubscribePacket.writeTo` for the writer
convention). -/
def SubAckPacket.writeTo : Option SubAckPacket → List Byte → List Byte × Option EncErr
  | none, w => (w, some .encodeBadPacket)
  | some s, w =>
    let first := CtrlSubAck * 16
    let varHeader := [s.PacketID / 256 % 256, s.PacketID % 256]
    match s.version with
    | .V311 => (w ++ packetBytes first varHeader s.payload, none)
    | .V5 => (w ++ packetBytesV5 first varHeader (SubAckProps.props s.Props) s.payload, none)
    | .VOther => (w, some .unsupportedVersion)

/-- `SubAckPacket.Bytes`. -/
def SubAckPacket.bytes : Option SubAckPacket → Option (List Byte)
  | none => none
  | some s => some (SubAckPacket.writeTo (some s) []).1

/-- UnSubProps: V5 properties of an UNSUBSCRIBE packet. -/
structure UnSubProps where
  UserProps : Option UserProps
deriving DecidableEq, Repr

/-- `UnSubProps.props` (property-set convention as in `SubAckProps.props`). -/
def UnSubProps.props : Option UnSubProps → List Byte
  | none => []
  | some p =>
    match p.UserProps with
    | some u => UserProps.encodeTo u
    | none => []

/-- UnSubPacket (`TopicNames []string`). -/
structure UnSubPacket where
  version : ProtoVersion
  PacketID : Nat
  TopicNames : List String
  Props : Option UnSubProps
deriving DecidableEq, Repr

/-- `UnSubPacket.payload`: the concatenated length-prefixed topic names. -/
def UnSubPacket.payload (s : UnSubPacket) : List Byte :=
  s.TopicNames.foldl (fun acc t => acc ++ encodeStringWithLen t) []

/-- `UnSubPacket.WriteTo`. -/
def UnSubPacket.writeTo : Option UnSubPacket → List Byte → List Byte × Option EncErr
  | none, w => (w, some .encodeBadPacket)
  | some s, w =>
    let first := CtrlUnSub * 16 + 2
    let varHeader := [s.PacketID / 256 % 256, s.PacketID % 256]
    match s.version with
    | .V311 => (w ++ packetBytes first varHeader s.payload, none)
    | .V5 => (w ++ packetBytesV5 first varHeader (UnSubProps.props s.Props) s.payload, none)
    | .VOther => (w, some .unsupportedVersion)

/-- `UnSubPacket.Bytes`. -/
def UnSubPacket.bytes : Option UnSubPacket → Option (List Byte)
  | none => none
  | some s => some (UnSubPacket.writeTo (some s) []).1

/-- UnSubAckProps: V5 properties of an UNSUBACK packet. -/
structure UnSubAckProps where
  Reason : String
  UserProps : Option UserProps
deriving DecidableEq, Repr

/-- `UnSubAckProps.props` (property-set convention as in `SubAckProps.props`). -/
def UnSubAckProps.props : Option UnSubAckProps → List Byte
  | none => []
  | some p =>
    (if p.Reason ≠ "" then propKeyReasonString :: encodeStringWithLen p.Reason else []) ++
      (match p.UserProps with
       | some u => UserProps.encodeTo u
       | none => [])

/-- UnSubAckPacket: PID only (its V3 payload is nil). -/
structure UnSubAckPacket where
  version : ProtoVersion
  PacketID : Nat
  Props : Option UnSubAckProps
deriving DecidableEq, Repr

/-- `UnSubAckPacket.WriteTo` (payload nil in both versions). -/
def UnSubAckPacket.writeTo : Option UnSubAckPacket → List Byte → List Byte × Option EncErr
  | none, w => (w, some .encodeBadPacket)
  | some s, w =>
    let first := CtrlUnSubAck * 16
    let varHeader := [s.PacketID / 256 % 256, s.PacketID % 256]
    match s.version with
    | .V311 => (w ++ packetBytes first varHeader [], none)
    | .V5 => (w ++ packetBytesV5 first varHeader (UnSubAckProps.props s.Props) [], none)
    | .VOther => (w, some .unsupportedVersion)

/-- `UnSubAckPacket.Bytes`. -/
def UnSubAckPacket.bytes : Option UnSubAckPacket → Option (List Byte)
  | none => none
  | some s => some (UnSubAckPacket.writeTo (some s) []).1

/-! ## Session engine (`src/client_conn.go`) -/

/-- The origin packet stored in the packet-identifier allocator
(`idGen.getExtra`): the outbound request a PID is bound to. `otherOrigin`
stands for any other packet kind, which every inner `switch` ignores. -/
inductive Origin
  | subscribe (topics : List Topic)
  | unSub (names : List String)
  | publish (qos : Nat) (topicName : String)
  | otherOrigin
deriving DecidableEq, Repr

/-- A decoded packet arriving on `netRecvC`, as consumed by `logic()`.
`otherPacket` stands for every kind the outer `switch` has no case for. -/
inductive InPacket
  | subAck (pid : Nat) (codes : List Byte)
  | unSubAck (pid : Nat)
  | publish (dup : Bool) (qos : Nat) (pid : Nat) (topicName : String) (payload : List Byte)
  | pubAck (pid : Nat)
  | pubRecv (pid : Nat)
  | pubRel (pid : Nat)
  | pubComp (pid : Nat)
  | otherPacket
deriving DecidableEq, Repr

/-- An engine-generated packet handed to `clientConn.send` (destined for
`logicSendC`). -/
inductive OutPacket
  | pubAck (pid : Nat)
  | pubRecv (pid : Nat)
  | pubRel (pid : Nat)
  | pubComp (pid : Nat)
deriving DecidableEq, Repr

/-- A persistence key: `sendKey(pid)` = "send/pid", `recvKey(pid)` = "recv/pid". -/
inductive PKey
  | sendK (pid : Nat)
  | recvK (pid : Nat)
deriving DecidableEq, Repr

/-- A persistence operation issued through `c.parent.persist`
(the stored value is the packet passed at the call site; the claims only
concern which key is stored or deleted, so the value is not recorded). -/
inductive PersistOp
  | store (k : PKey)
  | delete (k : PKey)
deriving DecidableEq, Repr

/-- A notification posted on `c.parent.msgCh` (`notifySubMsg`,
`notifyUnSubMsg`, `notifyPubMsg` with a nil error). `notifyPersistMsg`
events are represented by the `PersistOp` log instead. -/
inductive Notify
  | sub (topics : List Topic)
  | unsub (names : List String)
  | pub (topicName : String)
deriving DecidableEq, Repr

/-- Connection-scoped engine state: the in-flight map `pid → origin`
owned by `idGen` (an association list; `getExtra` takes the first match)
and the parent client's closing flag read by `clientConn.send`. -/
structure ConnState where
  sent : List (Nat × Origin)
  closing : Bool
deriving DecidableEq, Repr

/-- `idGen.getExtra(pid)`: look up the origin packet bound to `pid`. -/
def getExtra (sent : List (Nat × Origin)) (pid : Nat) : Option Origin :=
  (sent.find? (fun e => e.1 == pid)).map (fun e => e.2)

/-- `idGen.free(pid)`: drop the binding for `pid`. -/
def freeID (sent : List (Nat × Origin)) (pid : Nat) : List (Nat × Origin) :=
  sent.filter (fun e => e.1 != pid)

/-- The observable output of one `logic()` iteration: packets handed to
`logicSendC` via `c.send` (in call order), packets delivered to
`c.parent.recvCh`, notifications on `msgCh`, and persistence operations. -/
structure StepOut where
  sends : List OutPacket
  delivered : List InPacket
  notifies : List Notify
  persists : List PersistOp
deriving DecidableEq, Repr

/-- The empty step output. -/
def emptyOut : StepOut := ⟨[], [], [], []⟩

/-- Concatenate two step outputs componentwise (run accumulation). -/
def StepOut.append (a b : StepOut) : StepOut :=
  ⟨a.sends ++ b.sends, a.delivered ++ b.delivered,
   a.notifies ++ b.notifies, a.persists ++ b.persists⟩

/-- The packets `clientConn.send(pkt)` lets through: when the parent client
is closing it returns before touching `logicSendC`, so nothing is emitted. -/
def emitSend (st : ConnState) (p : OutPacket) : List OutPacket :=
  if st.closing then [] else [p]

/-- `clientConn.send` viewed as its effect on the `logicSendC` queue:
drops the packet silently when the parent client is closing. -/
def sendQueue (closing : Bool) (q : List OutPacket) (pkt : OutPacket) : List OutPacket :=
  if closing then q else q ++ [pkt]

/-- The SUBACK topic update: `for i, v := range originSub.Topics { if i < N
{ v.Qos = p.Codes[i] } }` — the i-th topic receives the i-th code while
codes last; topics beyond the number of codes keep their requested QoS.
(Rendered as simultaneous structural recursion over the two lists.) -/
def grantTopicQos : List Topic → List Byte → List Topic
  | [], _ => []
  | t :: ts, [] => t :: ts
  | t :: ts, c :: cs => { t with qos := c } :: grantTopicQos ts cs

/-- One iteration of the `logic()` receive switch on a decoded packet.
Cases follow `src/client_conn.go` lines 68–192:
- SUBACK with a SUBSCRIBE origin: write granted QoS per code, notify
  subscription results, free the PID, `Delete(sendKey(pid))`;
- UNSUBACK with an UNSUBSCRIBE origin: notify, free, `Delete(sendKey(pid))`;
- PUBLISH: always delivered to `recvCh` first; QoS 1 replies PUBACK and
  `Store(recvKey(pid))`, QoS 2 replies PUBREC and `Store(recvKey(pid))`;
- PUBACK with a QoS-1 PUBLISH origin: notify publish complete, free,
  `Delete(sendKey(pid))`;
- PUBREC with a QoS-2 PUBLISH origin: send PUBREL (persistence for the
  PUBREL happens in `handleSend`, see `handleSendPersist`);
- PUBREL with a QoS-2 PUBLISH origin: send PUBCOMP and
  `Store(recvKey(pid))` (the stored value is the received PUBREL packet);
- PUBCOMP with a QoS-2 PUBLISH origin: send PUBREL again, notify publish
  complete, free, `Delete(sendKey(pid))`;
- anything else (unknown PID, origin of another kind, other packet
  types): only a log line — the loop continues with nothing emitted. -/
def logicStep (st : ConnState) (pkt : InPacket) : ConnState × StepOut :=
  match pkt with
  | .subAck pid codes =>
    match getExtra st.sent pid with
    | some (.subscribe topics) =>
      ({ st with sent := freeID st.sent pid },
       { sends := [], delivered := [], notifies := [.sub (grantTopicQos topics codes)],
         persists := [.delete (.sendK pid)] })
    | _ => (st, emptyOut)
  | .unSubAck pid =>
    match getExtra st.sent pid with
    | some (.unSub names) =>
      ({ st with sent := freeID st.sent pid },
       { sends := [], delivered := [], notifies := [.unsub names],
         persists := [.delete (.sendK pid)] })
    | _ => (st, emptyOut)
  | .publish dup qos pid t pl =>
    if qos = 1 then
      (st, { sends := emitSend st (.pubAck pid), delivered := [.publish dup qos pid t pl],
             notifies := [], persists := [.store (.recvK pid)] })
    else if qos = 2 then
      (st, { sends := emitSend st (.pubRecv pid), delivered := [.publish dup qos pid t pl],
             notifies := [], persists := [.store (.recvK pid)] })
    else
      (st, { sends := [], delivered := [.publish dup qos pid t pl],
             notifies := [], persists := [] })
  | .pubAck pid =>
    match getExtra st.sent pid with
    | some (.publish q t) =>
      if q = 1 then
        ({ st with sent := freeID st.sent pid },
         { sends := [], delivered := [], notifies := [.pub t],
           persists := [.delete (.sendK pid)] })
      else (st, emptyOut)
    | _ => (st, emptyOut)
  | .pubRecv pid =>
    match getExtra st.sent pid with
    | some (.publish q _) =>
      if q = 2 then
        (st, { sends := emitSend st (.pubRel pid), delivered := [], notifies := [],
               persists := [] })
      else (st, emptyOut)
    | _ => (st, emptyOut)
  | .pubRel pid =>
    match getExtra st.sent pid with
    | some (.publish q _) =>
      if q = 2 then
        (st, { sends := emitSend st (.pubComp pid), delivered := [], notifies := [],
               persists := [.store (.recvK pid)] })
      else (st, emptyOut)
    | _ => (st, emptyOut)
  | .pubComp pid =>
    match getExtra st.sent pid with
    | some (.publish q t) =>
      if q = 2 then
        ({ st with sent := freeID st.sent pid },
         { sends := emitSend st (.pubRel pid), delivered := [], notifies := [.pub t],
           persists := [.delete (.sendK pid)] })
      else (st, emptyOut)
    | _ => (st, emptyOut)
  | .otherPacket => (st, emptyOut)

/-- Run `logic()` over a list of decoded packets, accumulating outputs. -/
def logicRun (st : ConnState) (ins : List InPacket) : ConnState × StepOut :=
  ins.foldl
    (fun acc pkt =>
      let r := logicStep acc.1 pkt
      (r.1, acc.2.append r.2))
    (st, emptyOut)

/-- The persistence operations `handleSend` runs after writing an
engine-generated packet from `logicSendC` (`src/client_conn.go` lines
301–310): a written PUBREL is stored under `sendKey`, a written PUBACK or
PUBCOMP deletes `sendKey`; PUBREC has no case there. -/
def handleSendPersist : OutPacket → List PersistOp
  | .pubRel pid => [.store (.sendK pid)]
  | .pubAck pid => [.delete (.sendK pid)]
  | .pubComp pid => [.delete (.sendK pid)]
  | .pubRecv _ => []

/-! ## Keepalive (`clientConn.keepalive`, `src/client_conn.go` lines 198–235)

Modelled as a discrete-event simulation. Time is a `Nat` in any fixed
unit (the concrete scenarios below use milliseconds). The Go code builds
a ticker of period `keepalive * 3 / 4` and a one-shot timer of duration
`float64(keepalive) * keepaliveFactor`, the latter armed when the
function starts; each loop iteration waits for a tick, sends PINGREQ,
then waits for either a PINGRESP (which resets the timer to the full
timeout) or the timer (which closes the connection via `c.exit()`).

Ticker semantics: tick `i` becomes available at time `i * period`; if the
task is busy past several ticks only the latest is pending and is
delivered as soon as the task returns to the outer select. Timer
semantics: the deadline is an absolute time; if it has already passed
when the inner select starts, the timer branch fires immediately. A
PINGRESP whose delivery time equals the deadline is a select race in Go;
the model resolves the tie in favour of the timer, which none of the
scenarios below exercise. -/

/-- Ticker period: `c.parent.options.keepalive * 3 / 4` (Go integer
division on `time.Duration`). -/
def keepalivePeriod (keepalive : Nat) : Nat := keepalive * 3 / 4

/-- Keepalive timing parameters: the ticker period and the timeout
duration (`float64(keepalive) * keepaliveFactor`, exact for the factors
used here). -/
structure KeepCfg where
  period : Nat
  timeout : Nat
deriving DecidableEq, Repr

/-- Simulation state of the keepalive task: index of the last consumed
tick (ticks fire at `(i+1) * period`), the absolute timer deadline, the
current time, and the arrival times of future PINGRESP messages in
ascending order. -/
structure KState where
  lastTick : Nat
  deadline : Nat
  now : Nat
  resps : List Nat
deriving DecidableEq, Repr

/-- Observable keepalive events: a PINGREQ sent at `t`, the timer reset at
`t` to the new absolute deadline, and the connection closed at `t`
(`c.exit()` on keepalive timeout). -/
inductive KEvent
  | pingReq (t : Nat)
  | deadlineReset (t newDeadline : Nat)
  | close (t : Nat)
deriving DecidableEq, Repr

/-- The keepalive loop, fuelled by the number of outer iterations to
simulate. Each iteration: wait for the next tick delivery (the pending
tick immediately, else the next fire), send PINGREQ, then the inner
select between the next PINGRESP and the timer. -/
def kloop (cfg : KeepCfg) : Nat → KState → List KEvent
  | 0, _ => []
  | fuel + 1, st =>
    let idx := max (st.lastTick + 1) (st.now / cfg.period)
    let tReq := max st.now (idx * cfg.period)
    match st.resps with
    | r :: rest =>
      let tResp := max tReq r
      if tResp < st.deadline then
        KEvent.pingReq tReq :: KEvent.deadlineReset tResp (tResp + cfg.timeout) ::
          kloop cfg fuel
            { lastTick := idx, deadline := tResp + cfg.timeout, now := tResp, resps := rest }
      else
        [KEvent.pingReq tReq, KEvent.close (max tReq st.deadline)]
    | [] => [KEvent.pingReq tReq, KEvent.close (max tReq st.deadline)]

/-- Run `clientConn.keepalive` from its start: the timeout timer is armed
with the full timeout when the function starts (before the first
PINGREQ), and no tick has been consumed yet. -/
def keepaliveTrace (cfg : KeepCfg) (resps : List Nat) (fuel : Nat) : List KEvent :=
  kloop cfg fuel { lastTick := 0, deadline := cfg.timeout, now := 0, resps := resps }

/-! ## Packet-identifier allocator -/

/-- Modelled from the spec: §4.5 — the allocator (`idGen`) is not under
src/; per spec it hands out 16-bit non-zero identifiers, fails with
`NoFreePacketID` when all 65535 are outstanding, and never hands out an
identifier still bound in the in-flight map. `used` is the set of
outstanding identifiers; `none` models the `NoFreePacketID` failure. -/
def allocID (used : Finset Nat) : Option Nat :=
  (List.range' 1 65535).find? (fun i => decide (i ∉ used))

/-! ## Theorems -/

/-- C1: the spec claims `Decode(Encode(P)) == P` for every supported
packet, in particular that a V5 `SubscribePacket` whose `Props` carry a
non-empty `UserProps` table round-trips. The encoder drops the table:
`SubscribeProps.props` appends only the `propKeyUserProps` tag byte while
the bytes produced by `UserProps.encodeTo` are appended to a by-value
slice and lost. Hence two packets that differ only in their user
properties serialize to identical bytes, so no decoder can satisfy the
round-trip property on both. -/
theorem subscribeV5_userProps_dropped_on_encode :
    SubscribeProps.props (some ⟨0, some [("k", "v")]⟩) = [propKeyUserProps] ∧
    SubscribePacket.writeTo (some ⟨.V5, 10, [⟨"a/b", 1⟩], some ⟨0, some [("k", "v")]⟩⟩) [] =
      SubscribePacket.writeTo (some ⟨.V5, 10, [⟨"a/b", 1⟩], some ⟨0, some [("x", "y")]⟩⟩) [] ∧
    (⟨.V5, 10, [⟨"a/b", 1⟩], some ⟨0, some [("k", "v")]⟩⟩ : SubscribePacket) ≠
      ⟨.V5, 10, [⟨"a/b", 1⟩], some ⟨0, some [("x", "y")]⟩⟩ := by
  exact ⟨rfl, rfl, by decide⟩

/-- C9: for each packet type of the subscribe/unsubscribe codec file,
`WriteTo` on a nil receiver returns `ErrEncodeBadPacket` and leaves the
writer untouched, and `Bytes` on a nil receiver returns nil. -/
theorem nil_receiver_writeTo_errors_bytes_nil : ∀ w : List Byte,
    SubscribePacket.writeTo none w = (w, some EncErr.encodeBadPacket) ∧
    SubAckPacket.writeTo none w = (w, some EncErr.encodeBadPacket) ∧
    UnSubPacket.writeTo none w = (w, some EncErr.encodeBadPacket) ∧
    UnSubAckPacket.writeTo none w = (w, some EncErr.encodeBadPacket) ∧
    SubscribePacket.bytes none = none ∧
    SubAckPacket.bytes none = none ∧
    UnSubPacket.bytes none = none ∧
    UnSubAckPacket.bytes none = none := by
  intro w
  exact ⟨rfl, rfl, rfl, rfl, rfl, rfl, rfl, rfl⟩

/-- Witness for C9 at a concrete non-empty writer buffer. -/
theorem nil_receiver_writeTo_errors_bytes_nil_witness :
    SubscribePacket.writeTo none [130] = ([130], some EncErr.encodeBadPacket) ∧
    SubAckPacket.writeTo none [130] = ([130], some EncErr.encodeBadPacket) ∧
    UnSubPacket.writeTo none [130] = ([130], some EncErr.encodeBadPacket) ∧
    UnSubAckPacket.writeTo none [130] = ([130], some EncErr.encodeBadPacket) ∧
    SubscribePacket.bytes none = none ∧
    SubAckPacket.bytes none = none ∧
    UnSubPacket.bytes none = none ∧
    UnSubAckPacket.bytes none = none :=
  nil_receiver_writeTo_errors_bytes_nil [130]

/-- C2 counterexample: on the run that receives the same QoS-2 PUBLISH
(PID 7) twice, the second time with DUP=1 while RecvKey(7) is stored, the
engine delivers the payload twice and emits PUBREC twice — refuting the
claimed at-most-once delivery and single PUBREC. -/
theorem qos2_duplicate_delivery_cex :
    ¬ (((logicRun ⟨[], false⟩
            [.publish false 2 7 "x" [112], .publish true 2 7 "x" [112]]).2.delivered.length ≤ 1) ∧
        (logicRun ⟨[], false⟩
            [.publish false 2 7 "x" [112], .publish true 2 7 "x" [112]]).2.sends.count
          (.pubRecv 7) = 1) := by
  decide

/-- C2 amended: every reception of a QoS-2 PUBLISH — original or DUP=1
retransmission alike, regardless of what is stored under RecvKey — makes
the engine deliver the payload once, emit one PUBREC(pid), and store
RecvKey(pid); there is no duplicate suppression, so n receptions mean n
deliveries and n PUBRECs. -/
theorem qos2_inbound_delivery_per_reception
    (st : ConnState) (dup : Bool) (pid : Nat) (t : String) (pl : List Byte)
    (h : st.closing = false) :
    logicStep st (.publish dup 2 pid t pl) =
      (st, { sends := [.pubRecv pid], delivered := [.publish dup 2 pid t pl],
             notifies := [], persists := [.store (.recvK pid)] }) := by
  simp [logicStep, emitSend, h]

/-- Witness for the amended C2 theorem at a concrete DUP retransmission. -/
theorem qos2_inbound_delivery_per_reception_witness :
    (⟨[], false⟩ : ConnState).closing = false ∧
    logicStep ⟨[], false⟩ (.publish true 2 7 "x" [112]) =
      (⟨[], false⟩,
       { sends := [.pubRecv 7], delivered := [.publish true 2 7 "x" [112]],
         notifies := [], persists := [.store (.recvK 7)] }) :=
  ⟨rfl, qos2_inbound_delivery_per_reception ⟨[], false⟩ true 7 "x" [112] rfl⟩

/-- C3 counterexample: PID 7 carries an in-flight QoS-2 PUBLISH and the
inbound record for 7 is present (the first step stores RecvKey(7));
ingesting PUBREL(7) emits PUBCOMP(7) but its persistence effect is a
Store under RecvKey(7) — it neither deletes RecvKey(7) nor refrains from
storing under it, refuting the claim. -/
theorem pubrel_stores_recvKey_cex :
    (logicStep ⟨[(7, .publish 2 "t")], false⟩ (.publish false 2 7 "x" [112])).2.persists =
        [.store (.recvK 7)] ∧
    (logicStep ⟨[(7, .publish 2 "t")], false⟩ (.pubRel 7)).2.sends = [.pubComp 7] ∧
    ¬ (PersistOp.delete (.recvK 7) ∈
          (logicStep ⟨[(7, .publish 2 "t")], false⟩ (.pubRel 7)).2.persists ∧
        PersistOp.store (.recvK 7) ∉
          (logicStep ⟨[(7, .publish 2 "t")], false⟩ (.pubRel 7)).2.persists) := by
  exact ⟨rfl, by decide, by decide⟩

/-- C3 amended: when the engine ingests PUBREL(pid) and the in-flight
record for pid is a QoS-2 PUBLISH, it emits PUBCOMP(pid) and stores the
PUBREL under RecvKey(pid) (no deletion of RecvKey); the associated
Delete is of SendKey(pid) and happens in `handleSend` when the PUBCOMP
is written. -/
theorem pubrel_emits_pubcomp_stores_recvKey
    (st : ConnState) (pid : Nat) (t : String)
    (hc : st.closing = false) (h : getExtra st.sent pid = some (.publish 2 t)) :
    logicStep st (.pubRel pid) =
      (st, { sends := [.pubComp pid], delivered := [], notifies := [],
             persists := [.store (.recvK pid)] }) ∧
    handleSendPersist (.pubComp pid) = [.delete (.sendK pid)] := by
  refine ⟨?_, rfl⟩
  simp [logicStep, h, emitSend, hc]

/-- Witness for the amended C3 theorem at a concrete state. -/
theorem pubrel_emits_pubcomp_stores_recvKey_witness :
    (⟨[(7, .publish 2 "t")], false⟩ : ConnState).closing = false ∧
    getExtra [(7, .publish 2 "t")] 7 = some (.publish 2 "t") ∧
    (logicStep ⟨[(7, .publish 2 "t")], false⟩ (.pubRel 7) =
      (⟨[(7, .publish 2 "t")], false⟩,
       { sends := [.pubComp 7], delivered := [], notifies := [],
         persists := [.store (.recvK 7)] }) ∧
     handleSendPersist (.pubComp 7) = [.delete (.sendK 7)]) :=
  ⟨rfl, by decide,
   pubrel_emits_pubcomp_stores_recvKey ⟨[(7, .publish 2 "t")], false⟩ 7 "t" rfl (by decide)⟩

/-- C4: the claim says the QoS-2 exchange PUBLISH → PUBREC → PUBREL →
PUBCOMP happens exactly once per PID, with exactly one PUBREL and none
after PUBCOMP. On the run [PUBREC(5), PUBCOMP(5)] for an in-flight QoS-2
PUBLISH the engine sends PUBREL(5) twice: the PUBCOMP case repeats the
PUBREL send of the PUBREC case before notifying the (single)
PublishResult, freeing the PID and deleting SendKey(5). -/
theorem qos2_outbound_double_pubrel :
    (logicRun ⟨[(5, .publish 2 "t")], false⟩ [.pubRecv 5, .pubComp 5]).2.sends =
        [.pubRel 5, .pubRel 5] ∧
    (logicStep ⟨[(5, .publish 2 "t")], false⟩ (.pubComp 5)).2.sends = [.pubRel 5] ∧
    (logicRun ⟨[(5, .publish 2 "t")], false⟩ [.pubRecv 5, .pubComp 5]).2.notifies =
        [.pub "t"] ∧
    (logicRun ⟨[(5, .publish 2 "t")], false⟩ [.pubRecv 5, .pubComp 5]).1.sent = [] := by
  exact ⟨by decide, by decide, by decide, by decide⟩

/-- C5 counterexample: with keepalive 2000 ms and factor 1.0 (timeout
2000 ms) and no PINGRESP, the keepalive model sends PINGREQ at t = 1500 ms
and closes at t = 2000 ms — not at t = 3500 ms as the claim states,
because the timeout timer is armed when the task starts, not when the
PINGREQ is sent. -/
theorem keepalive_close_time_cex :
    keepaliveTrace ⟨keepalivePeriod 2000, 2000⟩ [] 4 = [.pingReq 1500, .close 2000] ∧
    keepaliveTrace ⟨keepalivePeriod 2000, 2000⟩ [] 4 ≠ [.pingReq 1500, .close 3500] := by
  exact ⟨by decide, by decide⟩

/-- C5 amended: with ticker period p = keepalive × 3/4 and timeout
d = keepalive × factor (p ≤ d), the first PINGREQ goes out at t = p and,
with no PINGRESP, the connection closes at t = d measured from keepalive
start (for keepalive 2 s, factor 1.0: PINGREQ at 1.5 s, close at 2.0 s);
a PINGRESP resets the deadline to its own time plus d (response at
1.6 s: next PINGREQ at 3.0 s, close at 3.6 s). -/
theorem keepalive_timing (p d : Nat) (h : p ≤ d) :
    keepaliveTrace ⟨p, d⟩ [] 1 = [.pingReq p, .close d] ∧
    keepaliveTrace ⟨keepalivePeriod 2000, 2000⟩ [1600] 2 =
      [.pingReq 1500, .deadlineReset 1600 3600, .pingReq 3000, .close 3600] := by
  constructor
  · simp [keepaliveTrace, kloop, Nat.zero_div, Nat.max_eq_right h]
  · decide

/-- Witness for the amended C5 theorem at keepalive 2000 ms, factor 1.0. -/
theorem keepalive_timing_witness :
    1500 ≤ 2000 ∧
    keepaliveTrace ⟨1500, 2000⟩ [] 1 = [.pingReq 1500, .close 2000] :=
  ⟨by decide, (keepalive_timing 1500 2000 (by decide)).1⟩

/-- The SUBACK topic update keeps the number of topics. -/
theorem grantTopicQos_length (ts : List Topic) (cs : List Byte) :
    (grantTopicQos ts cs).length = ts.length := by
  induction ts generalizing cs with
  | nil => cases cs <;> rfl
  | cons t ts ih =>
    cases cs with
    | nil => rfl
    | cons c cs => simpa [grantTopicQos] using ih cs

/-- Within the range of the codes, the granted QoS overwrites the
requested one and the topic name is preserved. -/
theorem grantTopicQos_getD_lt (ts : List Topic) (cs : List Byte) (i : Nat)
    (hts : i < ts.length) (hcs : i < cs.length) :
    (grantTopicQos ts cs).getD i ⟨"", 0⟩ =
      { ts.getD i ⟨"", 0⟩ with qos := cs.getD i 0 } := by
  induction ts generalizing cs i with
  | nil => simp at hts
  | cons t ts ih =>
    cases cs with
    | nil => simp at hcs
    | cons c cs =>
      cases i with
      | zero => rfl
      | succ j =>
        simp only [grantTopicQos, List.getD_cons_succ]
        exact ih cs j (by simpa using hts) (by simpa using hcs)

/-- Beyond the number of codes, topics keep their requested QoS. -/
theorem grantTopicQos_getD_ge (ts : List Topic) (cs : List Byte) (i : Nat)
    (hcs : cs.length ≤ i) :
    (grantTopicQos ts cs).getD i ⟨"", 0⟩ = ts.getD i ⟨"", 0⟩ := by
  induction ts generalizing cs i with
  | nil => cases cs <;> rfl
  | cons t ts ih =>
    cases cs with
    | nil => rfl
    | cons c cs =>
      cases i with
      | zero => simp at hcs
      | succ j =>
        simp only [grantTopicQos, List.getD_cons_succ]
        exact ih cs j (by simpa using hcs)

/-- C6: on SUBACK(pid, codes) with an in-flight SUBSCRIBE, the engine
notifies the subscription results with the granted QoS written into each
requested topic in order from codes (truncated to the length of codes;
later topics keep their requested QoS), frees the PID and deletes
SendKey(pid); nothing is sent or delivered. -/
theorem suback_grants_qos_frees_pid
    (st : ConnState) (pid : Nat) (codes : List Byte) (topics : List Topic)
    (h : getExtra st.sent pid = some (.subscribe topics)) :
    logicStep st (.subAck pid codes) =
      ({ st with sent := freeID st.sent pid },
       { sends := [], delivered := [], notifies := [.sub (grantTopicQos topics codes)],
         persists := [.delete (.sendK pid)] }) ∧
    (grantTopicQos topics codes).length = topics.length ∧
    (∀ i, i < topics.length → i < codes.length →
      (grantTopicQos topics codes).getD i ⟨"", 0⟩ =
        { topics.getD i ⟨"", 0⟩ with qos := codes.getD i 0 }) ∧
    (∀ i, codes.length ≤ i →
      (grantTopicQos topics codes).getD i ⟨"", 0⟩ = topics.getD i ⟨"", 0⟩) := by
  refine ⟨by simp [logicStep, h], grantTopicQos_length topics codes,
    fun i hi hc => grantTopicQos_getD_lt topics codes i hi hc,
    fun i hc => grantTopicQos_getD_ge topics codes i hc⟩

/-- Witness for C6: SUBACK(10, [2]) against an in-flight SUBSCRIBE for
[("a/b", 1), ("c", 2)] — the first topic is granted QoS 2, the second
keeps its requested QoS 2 codes list being shorter. -/
theorem suback_grants_qos_frees_pid_witness :
    getExtra [(10, .subscribe [⟨"a/b", 1⟩, ⟨"c", 2⟩])] 10 =
      some (.subscribe [⟨"a/b", 1⟩, ⟨"c", 2⟩]) ∧
    (logicStep ⟨[(10, .subscribe [⟨"a/b", 1⟩, ⟨"c", 2⟩])], false⟩ (.subAck 10 [2]) =
      ({ sent := [], closing := false },
       { sends := [], delivered := [],
         notifies := [.sub (grantTopicQos [⟨"a/b", 1⟩, ⟨"c", 2⟩] [2])],
         persists := [.delete (.sendK 10)] }) ∧
     (grantTopicQos [⟨"a/b", 1⟩, ⟨"c", 2⟩] [2]).length = 2 ∧
     (∀ i, i < 2 → i < 1 →
       (grantTopicQos [⟨"a/b", 1⟩, ⟨"c", 2⟩] [2]).getD i ⟨"", 0⟩ =
         { ([⟨"a/b", 1⟩, ⟨"c", 2⟩] : List Topic).getD i ⟨"", 0⟩ with
             qos := ([2] : List Byte).getD i 0 }) ∧
     (∀ i, 1 ≤ i →
       (grantTopicQos [⟨"a/b", 1⟩, ⟨"c", 2⟩] [2]).getD i ⟨"", 0⟩ =
         ([⟨"a/b", 1⟩, ⟨"c", 2⟩] : List Topic).getD i ⟨"", 0⟩)) := by
  have hx := suback_grants_qos_frees_pid
    ⟨[(10, .subscribe [⟨"a/b", 1⟩, ⟨"c", 2⟩])], false⟩ 10 [2] [⟨"a/b", 1⟩, ⟨"c", 2⟩]
    (by decide)
  exact ⟨by decide, by simpa [freeID] using hx⟩

/-- C7: an acknowledgement (SUBACK, UNSUBACK, PUBACK, PUBREC, PUBCOMP)
whose PID has no in-flight record is ignored: the state is unchanged and
no send, delivery, notification or persistence operation happens (the
receive loop just continues — none of these switch arms exits it). -/
theorem unknown_pid_ack_ignored
    (st : ConnState) (pid : Nat) (codes : List Byte)
    (h : getExtra st.sent pid = none) :
    logicStep st (.subAck pid codes) = (st, emptyOut) ∧
    logicStep st (.unSubAck pid) = (st, emptyOut) ∧
    logicStep st (.pubAck pid) = (st, emptyOut) ∧
    logicStep st (.pubRecv pid) = (st, emptyOut) ∧
    logicStep st (.pubComp pid) = (st, emptyOut) := by
  refine ⟨?_, ?_, ?_, ?_, ?_⟩ <;> simp [logicStep, h]

/-- Witness for C7 on an empty in-flight map. -/
theorem unknown_pid_ack_ignored_witness :
    getExtra [] 3 = none ∧
    (logicStep ⟨[], false⟩ (.subAck 3 [0]) = (⟨[], false⟩, emptyOut) ∧
     logicStep ⟨[], false⟩ (.unSubAck 3) = (⟨[], false⟩, emptyOut) ∧
     logicStep ⟨[], false⟩ (.pubAck 3) = (⟨[], false⟩, emptyOut) ∧
     logicStep ⟨[], false⟩ (.pubRecv 3) = (⟨[], false⟩, emptyOut) ∧
     logicStep ⟨[], false⟩ (.pubComp 3) = (⟨[], false⟩, emptyOut)) :=
  ⟨rfl, unknown_pid_ack_ignored ⟨[], false⟩ 3 [0] rfl⟩

/-- If fewer than 65535 identifiers are outstanding, allocation succeeds. -/
theorem allocID_isSome_of_card_lt (used : Finset Nat)
    (hlt : used.card < 65535) :
    (allocID used).isSome = true := by
  rw [allocID, List.find?_isSome]
  by_contra hno
  push_neg at hno
  have hall : ∀ x ∈ List.range' 1 65535, x ∈ used := by
    intro x hx
    have hb := hno x hx
    simpa using hb
  have hsub2 : Finset.Icc 1 65535 ⊆ used := by
    intro x hx
    rw [Finset.mem_Icc] at hx
    exact hall x (List.mem_range'_1.mpr ⟨hx.1, by omega⟩)
  have hcard := Finset.card_le_card hsub2
  rw [Nat.card_Icc] at hcard
  omega

/-- C8: for any set of outstanding identifiers drawn from 1..65535, at
most 65535 are outstanding; a successful allocation returns an identifier
that is non-zero, not currently in flight, within 1..65535 and keeps the
outstanding count within 65535; with all 65535 outstanding the allocation
fails (NoFreePacketID — an error returned to the caller, not a
connection teardown); and after freeing any identifier an allocation
succeeds again. -/
theorem allocID_sound (used : Finset Nat) (hsub : used ⊆ Finset.Icc 1 65535) :
    used.card ≤ 65535 ∧
    (∀ id, allocID used = some id →
      id ≠ 0 ∧ id ∉ used ∧ 1 ≤ id ∧ id ≤ 65535 ∧ (insert id used).card ≤ 65535) ∧
    (used.card < 65535 → (allocID used).isSome = true) ∧
    (used.card = 65535 → allocID used = none) ∧
    (used.card = 65535 → ∀ id ∈ used, (allocID (used.erase id)).isSome = true) := by
  have hIcc : (Finset.Icc 1 65535).card = 65535 := by rw [Nat.card_Icc]
  refine ⟨?_, ?_, ?_, ?_, ?_⟩
  · have := Finset.card_le_card hsub
    omega
  · intro id hid
    rw [allocID] at hid
    have hp := List.find?_some hid
    have hni : id ∉ used := by simpa using hp
    have hmem : id ∈ List.range' 1 65535 := List.mem_of_find?_eq_some hid
    rw [List.mem_range'_1] at hmem
    have hins : insert id used ⊆ Finset.Icc 1 65535 := by
      intro x hx
      rcases Finset.mem_insert.mp hx with hx | hx
      · subst hx
        rw [Finset.mem_Icc]
        omega
      · exact hsub hx
    have hinsc := Finset.card_le_card hins
    exact ⟨by omega, hni, by omega, by omega, by omega⟩
  · exact allocID_isSome_of_card_lt used
  · intro hcard
    have hceq : used = Finset.Icc 1 65535 :=
      Finset.eq_of_subset_of_card_le hsub (by omega)
    rw [allocID, List.find?_eq_none]
    intro x hx
    rw [List.mem_range'_1] at hx
    have hxu : x ∈ used := by
      rw [hceq, Finset.mem_Icc]
      omega
    simp [hxu]
  · intro hcard id hid
    refine allocID_isSome_of_card_lt (used.erase id) ?_
    have := Finset.card_erase_of_mem hid
    omega

/-- Witness for C8 with one outstanding identifier. -/
theorem allocID_sound_witness :
    ({1} : Finset Nat) ⊆ Finset.Icc 1 65535 ∧
    (({1} : Finset Nat).card ≤ 65535 ∧
     (∀ id, allocID {1} = some id →
       id ≠ 0 ∧ id ∉ ({1} : Finset Nat) ∧ 1 ≤ id ∧ id ≤ 65535 ∧
         (insert id ({1} : Finset Nat)).card ≤ 65535) ∧
     (({1} : Finset Nat).card < 65535 → (allocID {1}).isSome = true) ∧
     (({1} : Finset Nat).card = 65535 → allocID {1} = none) ∧
     (({1} : Finset Nat).card = 65535 →
       ∀ id ∈ ({1} : Finset Nat), (allocID (({1} : Finset Nat).erase id)).isSome = true)) :=
  ⟨by decide, allocID_sound {1} (by decide)⟩

/-- C10: once the parent client is closing, every engine-generated send is
silently dropped — `clientConn.send` leaves the `logicSendC` queue
untouched and reports nothing, and no `logic()` step enqueues a packet. -/
theorem closing_drops_engine_sends :
    (∀ (q : List OutPacket) (p : OutPacket), sendQueue true q p = q) ∧
    (∀ (st : ConnState) (pkt : InPacket), st.closing = true →
      (logicStep st pkt).2.sends = []) := by
  refine ⟨fun q p => rfl, fun st pkt h => ?_⟩
  cases pkt <;> unfold logicStep <;> (repeat' split) <;> simp_all [emitSend, emptyOut]

/-- Witness for C10 on a closing connection receiving a QoS-2 PUBLISH. -/
theorem closing_drops_engine_sends_witness :
    sendQueue true [] (.pubAck 1) = [] ∧
    (⟨[], true⟩ : ConnState).closing = true ∧
    (logicStep ⟨[], true⟩ (.publish false 2 7 "x" [112])).2.sends = [] :=
  ⟨closing_drops_engine_sends.1 [] (.pubAck 1), rfl,
   closing_drops_engine_sends.2 ⟨[], true⟩ (.publish false 2 7 "x" [112]) rfl⟩

end LibMQTT
